import Mathlib

/-!
Verification development for the `auto_bioinformatics` analysis pipeline
(`src/analysis.py`, `src/imputers.py`, `src/auto_bioinformatics/scalers.py`).

The numeric cells of the expression matrix are modelled as `Option ℚ`, with
`none` standing for a missing value (`NaN`).  External numeric routines whose
precise floating-point value is irrelevant to the verified properties
(the scipy per-row t-test p-value, the sklearn KNN fill values, the numpy log on
positive arguments) are abstracted as function parameters; every structural
decision of the code (column resolution, NaN propagation, row dropping,
thresholding, branching, exception flow) is embedded directly from the source.
-/

/-! ### Substring matching

`pandas.Series.str.contains(pat)` treats `pat` as a regular expression.  All
properties below concern patterns free of regex metacharacters, for which the
match is plain substring containment; `listStartsWith`/`listContainsSub`
implement that containment on character lists. -/

/-- The test `listStartsWith p l` is true when `p` is an initial segment of `l`. -/
def listStartsWith : List Char → List Char → Bool
  | [], _ => true
  | _ :: _, [] => false
  | a :: as, b :: bs => a == b && listStartsWith as bs

/-- The test `listContainsSub p l` is true when `p` occurs contiguously inside `l`. -/
def listContainsSub (p : List Char) : List Char → Bool
  | [] => p.isEmpty
  | c :: cs => listStartsWith p (c :: cs) || listContainsSub p cs

/-- The test `strContains s pat` holds when the label `s` contains `pat` as a substring.  Models
`s` matching `pat` under `pd.Series.str.contains` for metacharacter-free
`pat`. -/
def strContains (s pat : String) : Bool :=
  listContainsSub pat.toList s.toList

/-! ### Group resolution — `AutoAnalysis._get_group_cols` (analysis.py:315-332)

The source method has two branches, one for a single group token and one for
a list of tokens.  The list branch matches each column label against the
joined pattern `"|".join(group_name)`, i.e. the regex alternation of the
tokens; for metacharacter-free tokens a label matches exactly when it
contains at least one of the tokens — except that joining the empty token
list yields the empty pattern, which matches every label. -/

/-- Single-token branch of `_get_group_cols`:
`self.data.columns[self.data.columns.str.contains(group_name)].to_list()`. -/
def getGroupColsStr (cols : List String) (g : String) : List String :=
  cols.filter (fun c => strContains c g)

/-- One label matched against the pattern `"|".join(tokens)`. -/
def joinedPatternContains (tokens : List String) (c : String) : Bool :=
  tokens.isEmpty || tokens.any (fun t => strContains c t)

/-- List-of-tokens branch of `_get_group_cols`:
`self.data.columns[self.data.columns.str.contains("|".join(group_name))].to_list()`. -/
def getGroupColsList (cols : List String) (tokens : List String) : List String :=
  cols.filter (joinedPatternContains tokens)

/-- Modelled from the spec words (for comparison with `getGroupColsList`):
"the order-preserved subsequence of the columns whose labels contain the
token (any of the tokens, OR-combined) as a substring". -/
def specResolve (cols : List String) (tokens : List String) : List String :=
  cols.filter (fun c => tokens.any (fun t => strContains c t))

/-! ### Data model

`AutoAnalysis.self.data` restricted to the gene-name column plus the numeric
sample columns.  Group tokens are assumed not to match the gene-name column
label itself (on which the numeric stages would be undefined). -/

/-- One feature row: the cleaned gene key (possibly missing) and the numeric
cells, aligned with the sample column labels. -/
structure FeatureRow where
  gene : Option String
  cells : List (Option ℚ)
  deriving DecidableEq

/-- The analysis matrix: sample column labels plus rows. -/
structure AnalysisData where
  cols : List String
  rows : List FeatureRow
  deriving DecidableEq

/-! ### Differential expression — `AutoAnalysis._run_single_de_anaylsis`
(analysis.py:228-278; the source method name carries the typo).

`group_1_cols`/`group_2_cols` come from `_get_group_cols`; `self.data.loc[:,
cols]` selects, per row, the cells of the matching columns in original column
order, which is the zip-filter below.  Row means use the pandas default
`skipna=True`; the per-row t-test p-value of `scipy.stats.ttest_ind` is
abstracted as the parameter `pv` (NaN outcomes are `none`). -/

/-- Per-row cell selection for a group token: the cells of the columns whose
label contains the token, in column order. -/
def rowGroupVals (cols : List String) (cells : List (Option ℚ)) (g : String) :
    List (Option ℚ) :=
  ((cols.zip cells).filter (fun lc => strContains lc.1 g)).map (fun lc => lc.2)

/-- Models `pd.DataFrame.mean(axis=1)`: mean of the non-missing values, `NaN` when
none remain (in particular for an empty column selection). -/
def optMean (vals : List (Option ℚ)) : Option ℚ :=
  let vs := vals.filterMap id
  if vs.isEmpty then none else some (vs.sum / (vs.length : ℚ))

/-- NaN-propagating subtraction of two series cells. -/
def optSub : Option ℚ → Option ℚ → Option ℚ
  | some a, some b => some (a - b)
  | _, _ => none

/-- One row of the per-pair `grouped_data` table after the two computed
columns are added: gene key, selected group-1 and group-2 cells,
`log_fold_change = group_2_mean - group_1_mean`, and the t-test `p_value`. -/
structure DERow where
  gene : Option String
  g1vals : List (Option ℚ)
  g2vals : List (Option ℚ)
  lfc : Option ℚ
  p : Option ℚ
  deriving DecidableEq

/-- Build one `grouped_data` row (analysis.py:245-256). -/
def mkDERow (pv : List (Option ℚ) → List (Option ℚ) → Option ℚ)
    (cols : List String) (g1 g2 : String) (r : FeatureRow) : DERow :=
  let v1 := rowGroupVals cols r.cells g1
  let v2 := rowGroupVals cols r.cells g2
  ⟨r.gene, v1, v2, optSub (optMean v2) (optMean v1), pv v1 v2⟩

/-- Models how `grouped_data.dropna()` drops a row when any of its columns is NaN: the
gene key, any selected group cell, the fold change, or the p-value. -/
def deRowHasNan (r : DERow) : Bool :=
  r.gene.isNone || r.g1vals.any Option.isNone || r.g2vals.any Option.isNone
    || r.lfc.isNone || r.p.isNone

/-- The significance filter of analysis.py:275-278:
`(p_value < p_value_threshold) & (log_fold_change.abs() > log_fold_change_threshold)`. -/
def isSig (pth fth : ℚ) (r : DERow) : Bool :=
  match r.p, r.lfc with
  | some p, some f => decide (p < pth) && decide (|f| > fth)
  | _, _ => false

/-- The full per-pair table before `dropna`. -/
def fullDeTable (pv : List (Option ℚ) → List (Option ℚ) → Option ℚ)
    (cols : List String) (g1 g2 : String) (rows : List FeatureRow) : List DERow :=
  rows.map (mkDERow pv cols g1 g2)

/-- Result of one pairwise DE analysis: the persisted table (after `dropna`)
and the returned significant-gene list. -/
structure DEOut where
  table : List DERow
  sig : List (Option String)
  deriving DecidableEq

/-- The per-pair table after `grouped_data.dropna()` (analysis.py:259). -/
def dropnaTable (pv : List (Option ℚ) → List (Option ℚ) → Option ℚ)
    (cols : List String) (g1 g2 : String) (rows : List FeatureRow) :
    List DERow :=
  (fullDeTable pv cols g1 g2 rows).filter (fun r => !(deRowHasNan r))

/-- The returned significant-gene list (analysis.py:275-278). -/
def sigGenes (pth fth : ℚ) (table : List DERow) : List (Option String) :=
  (table.filter (isSig pth fth)).map (fun r => r.gene)

/-- The error raised by the built-in `max()` over an empty series. -/
def volcanoEmptyError : String :=
  "ValueError: max() arg is an empty sequence"

/-- Models `plots.VolcanoPlot(...).plot()` as invoked at analysis.py:265-272:
on an *empty* per-pair table the symmetric-axis computation
`max(abs(self.log_fold_changes))` at plots.py:76 applies the built-in `max`
to an empty series and raises an uncaught `ValueError`; on a non-empty table
the data-dependent computations succeed (rendering itself is an external
concern). -/
def volcanoPlot (table : List DERow) : Except String Unit :=
  if table.isEmpty then Except.error volcanoEmptyError else Except.ok ()

/-- Models `AutoAnalysis._run_single_de_anaylsis` (analysis.py:228-278): build the
per-pair table, drop NaN rows, persist (external I/O sink), plot the volcano
(an uncaught `ValueError` on an empty table propagates), and return the gene
names of the significant rows. -/
def runSingleDeAnaylsis (pv : List (Option ℚ) → List (Option ℚ) → Option ℚ)
    (pth fth : ℚ) (d : AnalysisData) (g1 g2 : String) : Except String DEOut :=
  match volcanoPlot (dropnaTable pv d.cols g1 g2 d.rows) with
  | Except.error e => Except.error e
  | Except.ok _ =>
    Except.ok ⟨dropnaTable pv d.cols g1 g2 d.rows,
      sigGenes pth fth (dropnaTable pv d.cols g1 g2 d.rows)⟩

/-- Modelled from the spec words (for comparison with `rowGroupVals`): the
values of the row over the *resolved columns* of the group, i.e. the cells
whose label belongs to the output of `_get_group_cols` for the token. -/
def specGroupVals (cols : List String) (cells : List (Option ℚ)) (g : String) :
    List (Option ℚ) :=
  ((cols.zip cells).filter (fun lc => decide (lc.1 ∈ getGroupColsStr cols g))).map
    (fun lc => lc.2)

/-! ### Pathway analysis and the per-pair loop
(`AutoAnalysis._run_pathway_analysis`, analysis.py:280-313;
`AutoAnalysis._run_all_de_analysis`, analysis.py:189-226).

`gp.enrichr` is an external service call that may raise; it is modelled as a
parameter returning `Except String ER`.  The `PathwayBarPlot(...).plot()`
call is wrapped in a bare `try/except` that prints and swallows any failure,
so its outcome never influences control flow; it is modelled as a parameter
returning `Except String Unit` whose result is discarded either way.
`to_excel` writes are external I/O sinks and are not modelled.  An
`Except.error` of the whole loop models the uncaught Python exception
aborting `run()`. -/

/-- Models `AutoAnalysis._run_pathway_analysis`: call the enrichment service (an
uncaught failure propagates), persist the result table, then attempt the bar
plot inside a bare `try/except` (a failure there is swallowed). -/
def runPathwayAnalysis {ER : Type} (enrichr : List (Option String) → Except String ER)
    (plotRes : ER → Except String Unit) (sig : List (Option String)) :
    Except String Unit :=
  match enrichr sig with
  | Except.error e => Except.error e
  | Except.ok enriched =>
    match plotRes enriched with
    | Except.ok _ => Except.ok ()
    | Except.error _ => Except.ok ()

/-- One entry of `self.de_paths`: pair key, artifact kind
(`"volcano_fig"` / `"pathway_fig"`), artifact path. -/
structure DEPathEntry where
  pair : String
  artifact : String
  path : String
  deriving DecidableEq

/-- Observable outcome of `_run_all_de_analysis`: the artifact-path map, the
log of `gp.enrichr` invocations (pair key and gene list), and the per-pair DE
results. -/
structure RunOut where
  dePaths : List DEPathEntry
  calls : List (String × List (Option String))
  results : List (String × DEOut)
  deriving DecidableEq

/-- Models `itertools.combinations(groups, 2)` in order. -/
def combinations2 : List String → List (String × String)
  | [] => []
  | g :: gs => gs.map (fun h => (g, h)) ++ combinations2 gs

/-- The key `f"{group1_name}_{group2_name}"` of `self.de_paths`. -/
def keyOfPair (p : String × String) : String :=
  p.1 ++ "_" ++ p.2

/-- The body of `_run_all_de_analysis` over an explicit pair list: for each
pair record the volcano path, run the single DE analysis (whose own uncaught
failure — e.g. the volcano plot `ValueError` on an empty table — aborts the
remaining pairs), and when the significant list is non-empty record the
pathway path and run the pathway analysis (whose service failure likewise
aborts the remaining pairs). -/
def runAllDeAux {ER : Type} (pv : List (Option ℚ) → List (Option ℚ) → Option ℚ)
    (pth fth : ℚ) (d : AnalysisData)
    (enrichr : List (Option String) → Except String ER)
    (plotRes : ER → Except String Unit) :
    List (String × String) → Except String RunOut
  | [] => Except.ok ⟨[], [], []⟩
  | (g1, g2) :: rest =>
    match runSingleDeAnaylsis pv pth fth d g1 g2 with
    | Except.error e => Except.error e
    | Except.ok res =>
      if res.sig.isEmpty then
        match runAllDeAux pv pth fth d enrichr plotRes rest with
        | Except.ok restOut =>
          Except.ok ⟨⟨g1 ++ "_" ++ g2, "volcano_fig",
              g1 ++ "_" ++ g2 ++ "_volcano.png"⟩ :: restOut.dePaths,
            restOut.calls,
            (g1 ++ "_" ++ g2, res) :: restOut.results⟩
        | Except.error e => Except.error e
      else
        match runPathwayAnalysis enrichr plotRes res.sig with
        | Except.error e => Except.error e
        | Except.ok _ =>
          match runAllDeAux pv pth fth d enrichr plotRes rest with
          | Except.ok restOut =>
            Except.ok ⟨⟨g1 ++ "_" ++ g2, "volcano_fig",
                g1 ++ "_" ++ g2 ++ "_volcano.png"⟩ ::
              ⟨g1 ++ "_" ++ g2, "pathway_fig",
                g1 ++ "_" ++ g2 ++ "_pathways.png"⟩ :: restOut.dePaths,
              (g1 ++ "_" ++ g2, res.sig) :: restOut.calls,
              (g1 ++ "_" ++ g2, res) :: restOut.results⟩
          | Except.error e => Except.error e

/-- Models `AutoAnalysis._run_all_de_analysis` (analysis.py:189-226): iterate over
`combinations(self.groups, 2)`. -/
def runAllDeAnalysis {ER : Type} (pv : List (Option ℚ) → List (Option ℚ) → Option ℚ)
    (pth fth : ℚ) (d : AnalysisData) (groups : List String)
    (enrichr : List (Option String) → Except String ER)
    (plotRes : ER → Except String Unit) : Except String RunOut :=
  runAllDeAux pv pth fth d enrichr plotRes (combinations2 groups)

/-- The pair keys produced by a group list. -/
def pairKeys (groups : List String) : List String :=
  (combinations2 groups).map keyOfPair

/-! ### Log scalers — `scalers.py:36-92`

`Log2Scaler`/`Log10Scaler`/`LogScaler` all compute `np.logX(data).replace(-np.inf, 0)`.
One numpy cell is modelled as `NpFloat`; `np.logX` sends a positive finite
value to a finite value (the floating logarithm, abstracted as the parameter
`l` since only the sign classification matters here), `0` to `-inf`, a
negative value to `NaN` (with a runtime warning), `+inf` to `+inf`, `-inf`
and `NaN` to `NaN`. -/

/-- One numpy float cell: finite value, either infinity, or NaN. -/
inductive NpFloat where
  | fin : ℚ → NpFloat
  | posInf : NpFloat
  | negInf : NpFloat
  | nan : NpFloat
  deriving DecidableEq

/-- Models `np.log2` / `np.log10` / `np.log` on one cell, with the finite-branch
logarithm abstracted as `l`. -/
def npLog (l : ℚ → ℚ) : NpFloat → NpFloat
  | NpFloat.fin x =>
    if 0 < x then NpFloat.fin (l x)
    else if x = 0 then NpFloat.negInf
    else NpFloat.nan
  | NpFloat.posInf => NpFloat.posInf
  | NpFloat.negInf => NpFloat.nan
  | NpFloat.nan => NpFloat.nan

/-- Models the `.replace(-np.inf, 0)` step on one cell. -/
def replaceNegInfWithZero : NpFloat → NpFloat
  | NpFloat.negInf => NpFloat.fin 0
  | v => v

/-- Models `Log2Scaler.transform` on one cell (scalers.py:47-49). -/
def Log2Scaler.transform (log2 : ℚ → ℚ) (v : NpFloat) : NpFloat :=
  replaceNegInfWithZero (npLog log2 v)

/-- Models `Log10Scaler.transform` on one cell (scalers.py:67-69). -/
def Log10Scaler.transform (log10 : ℚ → ℚ) (v : NpFloat) : NpFloat :=
  replaceNegInfWithZero (npLog log10 v)

/-- Models `LogScaler.transform` on one cell (scalers.py:87-89). -/
def LogScaler.transform (ln : ℚ → ℚ) (v : NpFloat) : NpFloat :=
  replaceNegInfWithZero (npLog ln v)

/-! ### KNN imputation — `imputers.py:65-92` (`KNN_Imputer`)

`fit_transform` replaces `0` by `NaN`, drops rows whose non-missing count is
below `sample_threshold * ncols`, runs the sklearn `KNNImputer` on the
survivors (observed cells pass through unchanged, each missing cell is filled
with a value abstracted as `fill row col`), and reindexes to the original row
index with `NaN` rows for the dropped samples.  The sklearn imputer silently
removes any feature column that was entirely `NaN` in the fit data, in which
case the `pd.DataFrame(...)` call at imputers.py:86-90 receives an array
narrower than `clean_data.columns` and raises an uncaught `ValueError`. -/

/-- Models `data.replace(0, np.nan)` on one row. -/
def replaceZeroNan (row : List (Option ℚ)) : List (Option ℚ) :=
  row.map (fun c => if c = some 0 then none else c)

/-- Count of non-missing cells in a row. -/
def countSome (row : List (Option ℚ)) : ℕ :=
  (row.filterMap id).length

/-- Models how `dropna(thresh=t * ncols)` keeps a row exactly when its non-missing count
reaches the threshold. -/
def knnKeep (t : ℚ) (ncols : ℕ) (row : List (Option ℚ)) : Bool :=
  decide ((countSome row : ℚ) ≥ t * (ncols : ℚ))

/-- Models `data.shape[1]`. -/
def knnNcols (m : List (List (Option ℚ))) : ℕ :=
  ((m.head?).map List.length).getD 0

/-- sklearn `KNNImputer.transform` on one surviving row starting at column
`j`: observed cells pass through, missing cells are filled. -/
def fillCells (fill : ℕ → ℕ → ℚ) (i : ℕ) : ℕ → List (Option ℚ) → List (Option ℚ)
  | _, [] => []
  | j, c :: cs => some (c.getD (fill i j)) :: fillCells fill i (j + 1) cs

/-- Process the rows of the block, keeping original row positions: a
surviving row is cleaned and imputed, a dropped row re-enters as all-`NaN`
(`reindex(data.index, fill_value=np.nan)`). -/
def knnRows (fill : ℕ → ℕ → ℚ) (t : ℚ) (ncols : ℕ) :
    ℕ → List (List (Option ℚ)) → List (List (Option ℚ))
  | _, [] => []
  | i, row :: rest =>
    (if knnKeep t ncols (replaceZeroNan row) then
      fillCells fill i 0 (replaceZeroNan row)
    else
      List.replicate ncols none) :: knnRows fill t ncols (i + 1) rest

/-- Whether column `j` has at least one observed value among the given
rows. -/
def colObserved (rows : List (List (Option ℚ))) (j : ℕ) : Bool :=
  rows.any (fun r => ((r.get? j).getD none).isSome)

/-- Whether some column of the fit block is entirely missing. -/
def someColAllNan (ncols : ℕ) (rows : List (List (Option ℚ))) : Bool :=
  (List.range ncols).any (fun j => !(colObserved rows j))

/-- The error raised by the `pd.DataFrame` construction at imputers.py:86-90
when the sklearn `KNNImputer` has dropped columns that were all-NaN during
fit, making the imputed array narrower than `clean_data.columns`. -/
def knnShapeError : String :=
  "ValueError: shape of imputed values does not match the column index"

/-- Models `KNN_Imputer.fit_transform` (imputers.py:72-92) on a block of
rows: `replace(0, nan)`, threshold row drop, sklearn fit/transform on the
survivors, and re-expansion to the original row index.  The sklearn
`KNNImputer` removes features that were entirely missing in the fit data, so
when some column of the surviving cleaned rows is all-NaN (in particular
when no row survives and at least one column exists) the imputed array is
narrower than the original column labels and the `pd.DataFrame` construction
raises an uncaught `ValueError`. -/
def KNN_Imputer.fit_transform (fill : ℕ → ℕ → ℚ) (t : ℚ)
    (m : List (List (Option ℚ))) : Except String (List (List (Option ℚ))) :=
  if someColAllNan (knnNcols m)
      ((m.map replaceZeroNan).filter (knnKeep t (knnNcols m))) then
    Except.error knnShapeError
  else
    Except.ok (knnRows fill t (knnNcols m) 0 m)

/-! ### The imputation stage — `AutoAnalysis._impute_data` (analysis.py:106-137)

For each group token the stage resolves the columns of the group and selects the
block; the imputation plot *and the write-back of the imputed block into
`self.data`* both live inside the `if plot:` branch. -/

/-- Select the cells of a row at the `true` positions of a column mask. -/
def selectMask (mask : List Bool) (cells : List (Option ℚ)) : List (Option ℚ) :=
  ((mask.zip cells).filter (fun mc => mc.1)).map (fun mc => mc.2)

/-- Write a block row back into the full row at the `true` positions of the
mask (`self.data.loc[:, data_cols] = ...`). -/
def writeBack : List Bool → List (Option ℚ) → List (Option ℚ) → List (Option ℚ)
  | [], cells, _ => cells
  | _ :: _, [], _ => []
  | true :: ms, _ :: cs, v :: vs => v :: writeBack ms cs vs
  | true :: ms, c :: cs, [] => c :: writeBack ms cs []
  | false :: ms, c :: cs, vs => c :: writeBack ms cs vs

/-- One iteration of the `for group in self.groups` loop of `_impute_data`. -/
def imputeDataStep (imp : List (List (Option ℚ)) → List (List (Option ℚ)))
    (plot : Bool) (d : AnalysisData) (g : String) : AnalysisData :=
  let mask := d.cols.map (fun c => strContains c g)
  let block := d.rows.map (fun r => selectMask mask r.cells)
  if plot then
    let newBlock := imp block
    ⟨d.cols, (d.rows.zip newBlock).map
      (fun rn => ⟨rn.1.gene, writeBack mask rn.1.cells rn.2⟩)⟩
  else d

/-- Models `AutoAnalysis._impute_data`: fold the per-group step over the group
list.  The imputer strategy is abstracted as the block transformation
`imp`. -/
def imputeData (imp : List (List (Option ℚ)) → List (List (Option ℚ)))
    (plot : Bool) (groups : List String) (d : AnalysisData) : AnalysisData :=
  List.foldl (imputeDataStep imp plot) d groups

/-! ### Helper lemmas -/

/-- Selecting by membership in the resolved column list coincides with the
direct filter selection of the source. -/
theorem specGroupVals_eq_rowGroupVals (cols : List String)
    (cells : List (Option ℚ)) (g : String) :
    specGroupVals cols cells g = rowGroupVals cols cells g := by
  unfold specGroupVals rowGroupVals
  congr 1
  apply List.filter_congr
  intro lc hlc
  have h1 : lc.1 ∈ cols := (List.of_mem_zip hlc).1
  simp [getGroupColsStr, List.mem_filter, h1]

/-- Claim C1: for every group pair and every feature row, the computed
`log_fold_change` is the mean over the resolved columns of group 2 minus the
mean over the resolved columns of group 1, in that order. -/
theorem c1_fold_change_is_mean2_minus_mean1
    (pv : List (Option ℚ) → List (Option ℚ) → Option ℚ) (cols : List String)
    (g1 g2 : String) (rows : List FeatureRow) (fr : FeatureRow) :
    dropnaTable pv cols g1 g2 rows =
      (rows.map (mkDERow pv cols g1 g2)).filter (fun r => !(deRowHasNan r))
    ∧ (mkDERow pv cols g1 g2 fr).lfc =
      optSub (optMean (specGroupVals cols fr.cells g2))
        (optMean (specGroupVals cols fr.cells g1)) := by
  refine ⟨rfl, ?_⟩
  simp [mkDERow, specGroupVals_eq_rowGroupVals]

/-- Claim C2: the returned significant list consists of exactly the retained
rows passing the filter, and for any row with non-NaN `p_value` and
`log_fold_change` the filter holds iff `p_value < p_threshold` and
`|log_fold_change| > fc_threshold` (both strict). -/
theorem c2_significance_filter
    (pv : List (Option ℚ) → List (Option ℚ) → Option ℚ) (pth fth : ℚ)
    (d : AnalysisData) (g1 g2 : String) :
    sigGenes pth fth (dropnaTable pv d.cols g1 g2 d.rows) =
      ((dropnaTable pv d.cols g1 g2 d.rows).filter
        (isSig pth fth)).map (fun r => r.gene)
    ∧ (∀ out : DEOut, runSingleDeAnaylsis pv pth fth d g1 g2 = Except.ok out →
        out.sig = (out.table.filter (isSig pth fth)).map (fun r => r.gene))
    ∧ ∀ (r : DERow) (p f : ℚ), r.p = some p → r.lfc = some f →
        (isSig pth fth r = true ↔ (p < pth ∧ |f| > fth)) := by
  refine ⟨rfl, ?_, ?_⟩
  · intro out hout
    unfold runSingleDeAnaylsis at hout
    split at hout
    next e heq => cases hout
    next u heq =>
      injection hout with hout
      subst hout
      rfl
  · intro r p f hp hf
    obtain ⟨g, v1, v2, lf, pp⟩ := r
    simp only at hp hf
    subst hp; subst hf
    simp [isSig]

/-- Witness for C2 at a concrete row and thresholds. -/
theorem c2_significance_filter_witness :
    isSig (1/20) 1 ⟨some "G", [], [], some 2, some (1/100)⟩ = true :=
  ((c2_significance_filter (fun _ _ => none) (1/20) 1 ⟨[], []⟩ "A" "B").2.2
    ⟨some "G", [], [], some 2, some (1/100)⟩ (1/100) 2 rfl rfl).mpr
    (by norm_num)

/-- NaN-propagation of `optSub` on the right. -/
theorem optSub_none_right (a : Option ℚ) : optSub a none = none := by
  cases a <;> rfl

/-- NaN-propagation of `optSub` on the left. -/
theorem optSub_none_left (b : Option ℚ) : optSub none b = none := by
  cases b <;> rfl

/-- When a group token resolves to no column, the per-row selection is
empty. -/
theorem rowGroupVals_eq_nil_of_no_match (cols : List String)
    (cells : List (Option ℚ)) (g : String)
    (h : getGroupColsStr cols g = []) : rowGroupVals cols cells g = [] := by
  unfold getGroupColsStr at h
  have hc : ∀ c ∈ cols, ¬(strContains c g = true) := List.filter_eq_nil_iff.mp h
  unfold rowGroupVals
  rw [List.filter_eq_nil_iff.mpr (fun lc hlc => hc lc.1 (List.of_mem_zip hlc).1)]
  rfl

/-- Claim C3, amended: when at least one group of a pair resolves to zero
columns, the DE analysis of the pair neither raises a
`StatisticalComputationError` (no such class exists anywhere in the code)
nor silently returns an empty result: the empty-selection row means are NaN,
so `log_fold_change` is NaN for every row and `dropna` removes every row —
and the resulting *empty* table then makes the unguarded volcano plot call
raise a `ValueError` (built-in `max()` over an empty series, plots.py:76),
which propagates out of `_run_single_de_anaylsis` and aborts the run. -/
theorem c3_zero_column_group_amended
    (pv : List (Option ℚ) → List (Option ℚ) → Option ℚ) (pth fth : ℚ)
    (d : AnalysisData) (g1 g2 : String)
    (h : getGroupColsStr d.cols g1 = [] ∨ getGroupColsStr d.cols g2 = []) :
    dropnaTable pv d.cols g1 g2 d.rows = []
    ∧ runSingleDeAnaylsis pv pth fth d g1 g2 =
        Except.error volcanoEmptyError := by
  have hlfc : ∀ fr : FeatureRow, (mkDERow pv d.cols g1 g2 fr).lfc = none := by
    intro fr
    rcases h with h | h
    · have hv := rowGroupVals_eq_nil_of_no_match d.cols fr.cells g1 h
      show optSub (optMean (rowGroupVals d.cols fr.cells g2))
        (optMean (rowGroupVals d.cols fr.cells g1)) = none
      rw [hv]
      exact optSub_none_right _
    · have hv := rowGroupVals_eq_nil_of_no_match d.cols fr.cells g2 h
      show optSub (optMean (rowGroupVals d.cols fr.cells g2))
        (optMean (rowGroupVals d.cols fr.cells g1)) = none
      rw [hv]
      exact optSub_none_left _
  have htab : dropnaTable pv d.cols g1 g2 d.rows = [] := by
    apply List.filter_eq_nil_iff.mpr
    intro r hr
    obtain ⟨fr, _, rfl⟩ := List.mem_map.mp hr
    simp [deRowHasNan, hlfc fr]
  refine ⟨htab, ?_⟩
  unfold runSingleDeAnaylsis
  rw [htab]
  rfl

/-- Witness for the amended C3 on a concrete matrix where the token `"B"`
matches no column: every row is dropped and the volcano plot `ValueError`
surfaces. -/
theorem c3_zero_column_group_amended_witness :
    dropnaTable (fun _ _ => some 1) ["A1"] "A" "B" [⟨some "G", [some 1]⟩] = []
    ∧ runSingleDeAnaylsis (fun _ _ => some 1) 1 1
      ⟨["A1"], [⟨some "G", [some 1]⟩]⟩ "A" "B" =
        Except.error volcanoEmptyError :=
  c3_zero_column_group_amended (fun _ _ => some 1) 1 1
    ⟨["A1"], [⟨some "G", [some 1]⟩]⟩ "A" "B" (Or.inr (by decide))

/-- Counterexample to C3 as stated: on a concrete run in which group `"B"`
resolves to zero columns, the pair surfaces no `StatisticalComputationError`
-- what actually happens is that every row is dropped and the empty table
crashes the unguarded volcano plot with a foreign `ValueError`, which aborts
the whole DE stage. -/
theorem c3_zero_column_group_counterexample :
    getGroupColsStr ["A1"] "B" = []
    ∧ runSingleDeAnaylsis (fun _ _ => some 1) 1 1
        ⟨["A1"], [⟨some "G", [some 1]⟩]⟩ "A" "B" =
      Except.error volcanoEmptyError
    ∧ runAllDeAnalysis (fun _ _ => some 1) 1 1
        ⟨["A1"], [⟨some "G", [some 1]⟩]⟩ ["A", "B"]
        (fun _ => (Except.ok () : Except String Unit))
        (fun _ => Except.ok ()) =
      Except.error volcanoEmptyError :=
  ⟨by decide, rfl, rfl⟩

/-- Every pair key mentioned in the output of the DE loop comes from the
processed pair list. -/
theorem runAllDeAux_keys_subset {ER : Type}
    (pv : List (Option ℚ) → List (Option ℚ) → Option ℚ) (pth fth : ℚ)
    (d : AnalysisData) (enrichr : List (Option String) → Except String ER)
    (plotRes : ER → Except String Unit) :
    ∀ (pairs : List (String × String)) (out : RunOut),
      runAllDeAux pv pth fth d enrichr plotRes pairs = Except.ok out →
      (∀ c ∈ out.calls, c.1 ∈ pairs.map keyOfPair)
      ∧ (∀ e ∈ out.dePaths, e.pair ∈ pairs.map keyOfPair)
      ∧ (∀ kr ∈ out.results, kr.1 ∈ pairs.map keyOfPair) := by
  intro pairs
  induction pairs with
  | nil =>
    intro out h
    simp only [runAllDeAux] at h
    cases h
    exact ⟨fun c hc => absurd hc (List.not_mem_nil c),
      fun e he => absurd he (List.not_mem_nil e),
      fun kr hkr => absurd hkr (List.not_mem_nil kr)⟩
  | cons pr rest ih =>
    intro out h
    obtain ⟨g1, g2⟩ := pr
    simp only [runAllDeAux] at h
    split at h
    next e heq => cases h
    next res heq =>
      split at h
      · split at h
        next restOut hrec =>
          cases h
          obtain ⟨h1, h2, h3⟩ := ih restOut hrec
          refine ⟨?_, ?_, ?_⟩
          · intro c hc
            exact List.mem_cons_of_mem _ (h1 c hc)
          · intro e he
            rcases List.mem_cons.mp he with rfl | he
            · exact List.mem_cons_self _ _
            · exact List.mem_cons_of_mem _ (h2 e he)
          · intro kr hkr
            rcases List.mem_cons.mp hkr with rfl | hkr
            · exact List.mem_cons_self _ _
            · exact List.mem_cons_of_mem _ (h3 kr hkr)
        next e hrec => cases h
      · split at h
        next e hrec => cases h
        next u hrec =>
          split at h
          next restOut hrec2 =>
            cases h
            obtain ⟨h1, h2, h3⟩ := ih restOut hrec2
            refine ⟨?_, ?_, ?_⟩
            · intro c hc
              rcases List.mem_cons.mp hc with rfl | hc
              · exact List.mem_cons_self _ _
              · exact List.mem_cons_of_mem _ (h1 c hc)
            · intro e he
              rcases List.mem_cons.mp he with rfl | he
              · exact List.mem_cons_self _ _
              · rcases List.mem_cons.mp he with rfl | he
                · exact List.mem_cons_self _ _
                · exact List.mem_cons_of_mem _ (h2 e he)
            · intro kr hkr
              rcases List.mem_cons.mp hkr with rfl | hkr
              · exact List.mem_cons_self _ _
              · exact List.mem_cons_of_mem _ (h3 kr hkr)
          next e hrec2 => cases h

/-- Loop-level version of C4 over an explicit pair list with collision-free
pair keys. -/
theorem runAllDeAux_empty_sig_no_pathway {ER : Type}
    (pv : List (Option ℚ) → List (Option ℚ) → Option ℚ) (pth fth : ℚ)
    (d : AnalysisData) (enrichr : List (Option String) → Except String ER)
    (plotRes : ER → Except String Unit) :
    ∀ (pairs : List (String × String)) (out : RunOut) (key : String)
      (res : DEOut),
      (pairs.map keyOfPair).Nodup →
      runAllDeAux pv pth fth d enrichr plotRes pairs = Except.ok out →
      (key, res) ∈ out.results → res.sig = [] →
      (∀ gl, (key, gl) ∉ out.calls)
      ∧ (∀ e ∈ out.dePaths, e.pair = key → e.artifact ≠ "pathway_fig") := by
  intro pairs
  induction pairs with
  | nil =>
    intro out key res hnd h hmem hsig
    simp only [runAllDeAux] at h
    cases h
    exact absurd hmem (List.not_mem_nil _)
  | cons pr rest ih =>
    intro out key res hnd h hmem hsig
    obtain ⟨g1, g2⟩ := pr
    simp only [List.map_cons] at hnd
    have hnotin : g1 ++ "_" ++ g2 ∉ rest.map keyOfPair := by
      simpa [keyOfPair] using (List.nodup_cons.mp hnd).1
    have hnd2 : (rest.map keyOfPair).Nodup := (List.nodup_cons.mp hnd).2
    simp only [runAllDeAux] at h
    split at h
    next e heq => cases h
    next res0 heq =>
      split at h
      next hEmpty =>
        split at h
        next restOut hrec =>
          cases h
          obtain ⟨hK1, hK2, hK3⟩ :=
            runAllDeAux_keys_subset pv pth fth d enrichr plotRes rest restOut hrec
          rcases List.mem_cons.mp hmem with heq2 | hmem2
          · injection heq2 with hk hr
            subst hk
            refine ⟨?_, ?_⟩
            · intro gl hgl
              exact hnotin (hK1 _ hgl)
            · intro e he hep
              rcases List.mem_cons.mp he with rfl | he2
              · show ("volcano_fig" : String) ≠ "pathway_fig"
                decide
              · have hmem3 := hK2 e he2
                rw [hep] at hmem3
                exact absurd hmem3 hnotin
          · have hkeyrest : key ∈ rest.map keyOfPair := hK3 _ hmem2
            obtain ⟨ih1, ih2⟩ := ih restOut key res hnd2 hrec hmem2 hsig
            refine ⟨fun gl hgl => ih1 gl hgl, ?_⟩
            intro e he hep
            rcases List.mem_cons.mp he with rfl | he2
            · show ("volcano_fig" : String) ≠ "pathway_fig"
              decide
            · exact ih2 e he2 hep
        next e hrec => cases h
      next hNonEmpty =>
        split at h
        next e hrec => cases h
        next u hrec =>
          split at h
          next restOut hrec2 =>
            cases h
            obtain ⟨hK1, hK2, hK3⟩ :=
              runAllDeAux_keys_subset pv pth fth d enrichr plotRes rest restOut
                hrec2
            rcases List.mem_cons.mp hmem with heq2 | hmem2
            · injection heq2 with hk hr
              rw [← hr] at hNonEmpty
              rw [hsig] at hNonEmpty
              exact absurd rfl hNonEmpty
            · have hkeyrest : key ∈ rest.map keyOfPair := hK3 _ hmem2
              obtain ⟨ih1, ih2⟩ := ih restOut key res hnd2 hrec2 hmem2 hsig
              refine ⟨?_, ?_⟩
              · intro gl hgl
                rcases List.mem_cons.mp hgl with heq3 | hgl2
                · injection heq3 with hk2 hg2
                  rw [hk2] at hkeyrest
                  exact hnotin hkeyrest
                · exact ih1 gl hgl2
              · intro e he hep
                rcases List.mem_cons.mp he with rfl | he2
                · show ("volcano_fig" : String) ≠ "pathway_fig"
                  decide
                · rcases List.mem_cons.mp he2 with rfl | he3
                  · have hkk : g1 ++ "_" ++ g2 = key := hep
                    rw [← hkk] at hkeyrest
                    exact absurd hkeyrest hnotin
                  · exact ih2 e he3 hep
          next e hrec2 => cases h

/-- Claim C4: in a completed DE stage with collision-free pair keys (the
naming assumption stated by the spec), a pair whose significant-gene list is empty
triggers no `gp.enrichr` invocation and owns no `pathway_fig` artifact entry
in `self.de_paths`. -/
theorem c4_empty_sig_skips_pathway {ER : Type}
    (pv : List (Option ℚ) → List (Option ℚ) → Option ℚ) (pth fth : ℚ)
    (d : AnalysisData) (groups : List String)
    (enrichr : List (Option String) → Except String ER)
    (plotRes : ER → Except String Unit) (out : RunOut) (key : String)
    (res : DEOut)
    (hnd : (pairKeys groups).Nodup)
    (hrun : runAllDeAnalysis pv pth fth d groups enrichr plotRes = Except.ok out)
    (hmem : (key, res) ∈ out.results) (hsig : res.sig = []) :
    (∀ gl, (key, gl) ∉ out.calls)
    ∧ (∀ e ∈ out.dePaths, e.pair = key → e.artifact ≠ "pathway_fig") :=
  runAllDeAux_empty_sig_no_pathway pv pth fth d enrichr plotRes
    (combinations2 groups) out key res hnd hrun hmem hsig

/-- Witness for C4 on a concrete run (one pair whose single row passes
`dropna` but fails the significance filter, hence an empty significant
list): no enrichment call is logged and the only artifact of the pair is the
volcano figure. -/
theorem c4_empty_sig_skips_pathway_witness :
    ("A_B", ([] : List (Option String))) ∉
      (RunOut.mk [⟨"A_B", "volcano_fig", "A_B_volcano.png"⟩] []
        [("A_B", ⟨[⟨some "G", [some 1], [some 2],
          optSub (optMean [some 2]) (optMean [some 1]), some 0⟩], []⟩)]).calls
    ∧ ((⟨"A_B", "volcano_fig", "A_B_volcano.png"⟩ : DEPathEntry)).artifact ≠
      "pathway_fig" :=
  have h := c4_empty_sig_skips_pathway (fun _ _ => some 0) 0 0
    ⟨["A1", "B1"], [⟨some "G", [some 1, some 2]⟩]⟩ ["A", "B"]
    (fun _ => Except.ok ()) (fun _ => Except.ok ())
    ⟨[⟨"A_B", "volcano_fig", "A_B_volcano.png"⟩], [],
      [("A_B", ⟨[⟨some "G", [some 1], [some 2],
        optSub (optMean [some 2]) (optMean [some 1]), some 0⟩], []⟩)]⟩
    "A_B"
    ⟨[⟨some "G", [some 1], [some 2],
      optSub (optMean [some 2]) (optMean [some 1]), some 0⟩], []⟩
    (by decide) rfl (List.mem_cons_self _ _) rfl
  ⟨h.1 [], h.2 ⟨"A_B", "volcano_fig", "A_B_volcano.png"⟩
    (List.mem_cons_self _ _) rfl⟩

/-- When the enrichment service call succeeds, `_run_pathway_analysis`
always returns normally — the bar-plot `try/except` swallows any plotting
failure. -/
theorem runPathwayAnalysis_ok {ER : Type}
    (enrichr : List (Option String) → Except String ER)
    (plotRes : ER → Except String Unit) (sig : List (Option String))
    (h : ∃ r, enrichr sig = Except.ok r) :
    runPathwayAnalysis enrichr plotRes sig = Except.ok () := by
  obtain ⟨r, hr⟩ := h
  cases hpr : plotRes r with
  | ok u => simp [runPathwayAnalysis, hr, hpr]
  | error e => simp [runPathwayAnalysis, hr, hpr]

/-- Loop-level version of the amended C5: if every pending single DE
analysis succeeds and the service never fails, the DE loop completes for
every plotting behaviour. -/
theorem runAllDeAux_ok_of_enrichr_total {ER : Type}
    (pv : List (Option ℚ) → List (Option ℚ) → Option ℚ) (pth fth : ℚ)
    (d : AnalysisData) (enrichr : List (Option String) → Except String ER)
    (plotRes : ER → Except String Unit)
    (htot : ∀ gl, ∃ r, enrichr gl = Except.ok r) :
    ∀ pairs : List (String × String),
      (∀ g1 g2, (g1, g2) ∈ pairs →
        ∃ res, runSingleDeAnaylsis pv pth fth d g1 g2 = Except.ok res) →
      ∃ out, runAllDeAux pv pth fth d enrichr plotRes pairs =
        Except.ok out := by
  intro pairs
  induction pairs with
  | nil =>
    intro _
    exact ⟨⟨[], [], []⟩, rfl⟩
  | cons pr rest ih =>
    intro hde
    obtain ⟨g1, g2⟩ := pr
    obtain ⟨res, hres⟩ := hde g1 g2 (List.mem_cons_self _ _)
    obtain ⟨restOut, hrec⟩ :=
      ih (fun a b hab => hde a b (List.mem_cons_of_mem _ hab))
    by_cases hsig : res.sig.isEmpty = true
    · refine ⟨⟨⟨g1 ++ "_" ++ g2, "volcano_fig",
        g1 ++ "_" ++ g2 ++ "_volcano.png"⟩ :: restOut.dePaths, restOut.calls,
        (g1 ++ "_" ++ g2, res) :: restOut.results⟩, ?_⟩
      simp only [runAllDeAux, hres]
      rw [if_pos hsig, hrec]
    · have hpa := runPathwayAnalysis_ok enrichr plotRes res.sig (htot _)
      refine ⟨⟨⟨g1 ++ "_" ++ g2, "volcano_fig",
          g1 ++ "_" ++ g2 ++ "_volcano.png"⟩ ::
          ⟨g1 ++ "_" ++ g2, "pathway_fig",
            g1 ++ "_" ++ g2 ++ "_pathways.png"⟩ :: restOut.dePaths,
        (g1 ++ "_" ++ g2, res.sig) :: restOut.calls,
        (g1 ++ "_" ++ g2, res) :: restOut.results⟩, ?_⟩
      simp only [runAllDeAux, hres]
      rw [if_neg hsig, hpa, hrec]

/-- Claim C5, amended: only the pathway bar-plot failure is isolated — the
bare `try/except` swallows it (reporting by print only), so whenever every
single DE analysis of the run succeeds and the service never fails, the
whole loop completes regardless of the plotting behaviour.  A failure of the
`gp.enrichr` service call itself, by contrast, propagates and aborts the run
(see the counterexample), as does an uncaught DE-stage failure such as the
volcano plot crash on an empty table. -/
theorem c5_plot_failure_isolated_amended {ER : Type}
    (pv : List (Option ℚ) → List (Option ℚ) → Option ℚ) (pth fth : ℚ)
    (d : AnalysisData) (groups : List String)
    (enrichr : List (Option String) → Except String ER)
    (plotRes : ER → Except String Unit)
    (hde : ∀ g1 g2, (g1, g2) ∈ combinations2 groups →
      ∃ res, runSingleDeAnaylsis pv pth fth d g1 g2 = Except.ok res)
    (htot : ∀ gl, ∃ r, enrichr gl = Except.ok r) :
    ∃ out, runAllDeAnalysis pv pth fth d groups enrichr plotRes =
      Except.ok out :=
  runAllDeAux_ok_of_enrichr_total pv pth fth d enrichr plotRes htot
    (combinations2 groups) hde

/-- Witness for the amended C5: a concrete run with a non-empty significant
list and an always-failing plotting step still completes. -/
theorem c5_plot_failure_isolated_amended_witness :
    ∃ out, runAllDeAnalysis (fun _ _ => some 0) 1 1
      ⟨["A1", "A2", "B1", "B2"],
        [⟨some "G", [some 1, some 1, some 4, some 4]⟩]⟩
      ["A", "B"] (fun _ => (Except.ok () : Except String Unit))
      (fun _ => (Except.error "plot failed" : Except String Unit)) =
      Except.ok out :=
  c5_plot_failure_isolated_amended (fun _ _ => some 0) 1 1
    ⟨["A1", "A2", "B1", "B2"],
      [⟨some "G", [some 1, some 1, some 4, some 4]⟩]⟩
    ["A", "B"] (fun _ => (Except.ok () : Except String Unit))
    (fun _ => (Except.error "plot failed" : Except String Unit))
    (by
      intro g1 g2 hmem
      have h1 : (g1, g2) = ("A", "B") := by
        simpa [combinations2] using hmem
      injection h1 with h2 h3
      subst h2
      subst h3
      exact ⟨_, rfl⟩)
    (fun _ => ⟨(), rfl⟩)

/-- If the first pending pair completes its DE step with a non-empty
significant list and the service call on it fails, the whole DE loop
evaluates to that error. -/
theorem runAllDeAux_error_of_service_failure {ER : Type}
    (pv : List (Option ℚ) → List (Option ℚ) → Option ℚ) (pth fth : ℚ)
    (d : AnalysisData) (enrichr : List (Option String) → Except String ER)
    (plotRes : ER → Except String Unit) (g1 g2 : String)
    (rest : List (String × String)) (res : DEOut) (e : String)
    (hde : runSingleDeAnaylsis pv pth fth d g1 g2 = Except.ok res)
    (hsig : res.sig.isEmpty = false)
    (hfail : enrichr res.sig = Except.error e) :
    runAllDeAux pv pth fth d enrichr plotRes ((g1, g2) :: rest) =
      Except.error e := by
  have hpa : runPathwayAnalysis enrichr plotRes res.sig = Except.error e := by
    unfold runPathwayAnalysis
    rw [hfail]
  simp only [runAllDeAux, hde]
  rw [if_neg (by simp [hsig]), hpa]

/-- Counterexample to C5 as stated: with three group pairs pending and an
enrichment service that fails, the failure on the first pair is caught
nowhere — the whole DE loop evaluates to that error, so the two remaining
pairs are never processed and the run aborts. -/
theorem c5_service_failure_aborts_counterexample :
    combinations2 ["A", "B", "C"] = [("A", "B"), ("A", "C"), ("B", "C")]
    ∧ runAllDeAnalysis (fun _ _ => some 0) 1 1
        ⟨["A1", "A2", "B1", "B2"],
          [⟨some "G", [some 1, some 1, some 4, some 4]⟩]⟩
        ["A", "B", "C"]
        (fun _ => (Except.error "network failure" : Except String Unit))
        (fun _ => Except.ok ()) =
      Except.error "network failure" := by
  constructor
  · rfl
  · have hkept : dropnaTable (fun _ _ => some 0) ["A1", "A2", "B1", "B2"]
        "A" "B" [⟨some "G", [some 1, some 1, some 4, some 4]⟩]
        = [⟨some "G", [some 1, some 1], [some 4, some 4],
            optSub (optMean [some 4, some 4]) (optMean [some 1, some 1]),
            some 0⟩] := rfl
    have hm : optSub (optMean [some 4, some 4]) (optMean [some 1, some 1]) =
        some 3 := by
      have h4 : optMean [some 4, some 4] = some 4 := by
        show some (((4 : ℚ) + (4 + 0)) / ((2 : ℕ) : ℚ)) = some 4
        norm_num
      have h1 : optMean [some 1, some 1] = some 1 := by
        show some (((1 : ℚ) + (1 + 0)) / ((2 : ℕ) : ℚ)) = some 1
        norm_num
      rw [h4, h1]
      show some ((4 : ℚ) - 1) = some 3
      norm_num
    have hisSig : isSig 1 1 ⟨some "G", [some 1, some 1], [some 4, some 4],
        optSub (optMean [some 4, some 4]) (optMean [some 1, some 1]),
        some 0⟩ = true := by
      rw [hm]
      decide
    have hsiglist : sigGenes 1 1 (dropnaTable (fun _ _ => some 0)
        ["A1", "A2", "B1", "B2"] "A" "B"
        [⟨some "G", [some 1, some 1, some 4, some 4]⟩]) = [some "G"] := by
      rw [hkept]
      unfold sigGenes
      simp [List.filter_cons, hisSig]
    have hdeok : runSingleDeAnaylsis (fun _ _ => some 0) 1 1
        ⟨["A1", "A2", "B1", "B2"],
          [⟨some "G", [some 1, some 1, some 4, some 4]⟩]⟩ "A" "B" =
        Except.ok ⟨[⟨some "G", [some 1, some 1], [some 4, some 4],
          optSub (optMean [some 4, some 4]) (optMean [some 1, some 1]),
          some 0⟩], [some "G"]⟩ := by
      have hsingle : runSingleDeAnaylsis (fun _ _ => some 0) 1 1
          ⟨["A1", "A2", "B1", "B2"],
            [⟨some "G", [some 1, some 1, some 4, some 4]⟩]⟩ "A" "B" =
          Except.ok ⟨dropnaTable (fun _ _ => some 0) ["A1", "A2", "B1", "B2"]
            "A" "B" [⟨some "G", [some 1, some 1, some 4, some 4]⟩],
            sigGenes 1 1 (dropnaTable (fun _ _ => some 0)
              ["A1", "A2", "B1", "B2"] "A" "B"
              [⟨some "G", [some 1, some 1, some 4, some 4]⟩])⟩ := rfl
      rw [hsingle, hsiglist, hkept]
    show runAllDeAux (fun _ _ => some 0) 1 1
        ⟨["A1", "A2", "B1", "B2"],
          [⟨some "G", [some 1, some 1, some 4, some 4]⟩]⟩
        (fun _ => (Except.error "network failure" : Except String Unit))
        (fun _ => Except.ok ())
        (("A", "B") :: [("A", "C"), ("B", "C")]) =
      Except.error "network failure"
    exact runAllDeAux_error_of_service_failure (fun _ _ => some 0) 1 1
      ⟨["A1", "A2", "B1", "B2"],
        [⟨some "G", [some 1, some 1, some 4, some 4]⟩]⟩
      (fun _ => (Except.error "network failure" : Except String Unit))
      (fun _ => Except.ok ()) "A" "B" [("A", "C"), ("B", "C")]
      ⟨[⟨some "G", [some 1, some 1], [some 4, some 4],
        optSub (optMean [some 4, some 4]) (optMean [some 1, some 1]),
        some 0⟩], [some "G"]⟩
      "network failure" hdeok rfl rfl

/-- Claim C6, amended: for a single token, and for every *non-empty* token
list, `_get_group_cols` returns exactly the order-preserved subsequence of
the columns whose label contains the token (any of the tokens, OR-combined)
as a substring — in particular the empty list, with no error, when nothing
matches.  For the *empty* token list, however, the joined pattern is the
empty string, which matches every label, so all columns are returned (see
the counterexample). -/
theorem c6_group_resolution_amended (cols : List String) (g : String)
    (tokens : List String) :
    getGroupColsStr cols g = specResolve cols [g]
    ∧ (tokens ≠ [] → getGroupColsList cols tokens = specResolve cols tokens) := by
  constructor
  · unfold getGroupColsStr specResolve
    apply List.filter_congr
    intro c hc
    simp
  · intro ht
    cases tokens with
    | nil => exact absurd rfl ht
    | cons t ts =>
      unfold getGroupColsList specResolve joinedPatternContains
      apply List.filter_congr
      intro c hc
      simp [List.isEmpty]

/-- Witness for the amended C6 at a concrete column list and token list. -/
theorem c6_group_resolution_amended_witness :
    getGroupColsList ["A1", "B1", "A2"] ["A"] =
      specResolve ["A1", "B1", "A2"] ["A"] :=
  (c6_group_resolution_amended ["A1", "B1", "A2"] "X" ["A"]).2 (by decide)

/-- Counterexample to C6 as stated: for the empty token list the resolver
returns *all* columns (the joined pattern is the empty string, matching every
label), not the empty spec-side subsequence. -/
theorem c6_group_resolution_counterexample :
    getGroupColsList ["X"] [] = ["X"] ∧ specResolve ["X"] [] = []
    ∧ getGroupColsList ["X"] [] ≠ specResolve ["X"] [] :=
  ⟨rfl, rfl, by decide⟩

/-- A zero cell goes to `-inf` under the log and is clamped to `0`. -/
theorem logScalerCell_zero (l : ℚ → ℚ) :
    replaceNegInfWithZero (npLog l (NpFloat.fin 0)) = NpFloat.fin 0 := by
  norm_num [npLog, replaceNegInfWithZero]

/-- A negative cell goes to `NaN` under the log and `replace(-inf, 0)` does
not touch it. -/
theorem logScalerCell_neg (l : ℚ → ℚ) (x : ℚ) (hx : x < 0) :
    replaceNegInfWithZero (npLog l (NpFloat.fin x)) = NpFloat.nan := by
  have h1 : ¬(0 < x) := not_lt.mpr (le_of_lt hx)
  have h2 : ¬(x = 0) := ne_of_lt hx
  simp [npLog, replaceNegInfWithZero, h1, h2]

/-- Unless the input cell is already `+inf`, the clamped log output is never
an infinity. -/
theorem logScalerCell_no_inf (l : ℚ → ℚ) (v : NpFloat)
    (hv : v ≠ NpFloat.posInf) :
    replaceNegInfWithZero (npLog l v) ≠ NpFloat.posInf
    ∧ replaceNegInfWithZero (npLog l v) ≠ NpFloat.negInf := by
  cases v with
  | fin x =>
    by_cases h1 : 0 < x
    · simp [npLog, replaceNegInfWithZero, h1]
    · by_cases h2 : x = 0
      · simp [npLog, replaceNegInfWithZero, h1, h2]
      · simp [npLog, replaceNegInfWithZero, h1, h2]
  | posInf => exact absurd rfl hv
  | negInf => simp [npLog, replaceNegInfWithZero]
  | nan => simp [npLog, replaceNegInfWithZero]

/-- Claim C7, amended: the log2 / log10 / natural-log scalers send a *zero*
cell to `0` (the `-inf` is clamped), but a *negative* cell to `NaN`, not `0`;
and for any input cell that is not already `+inf` the output contains no
infinity. -/
theorem c7_log_scalers_clamp_amended (l : ℚ → ℚ) (x : ℚ) (v : NpFloat) :
    (x = 0 → Log2Scaler.transform l (NpFloat.fin x) = NpFloat.fin 0
      ∧ Log10Scaler.transform l (NpFloat.fin x) = NpFloat.fin 0
      ∧ LogScaler.transform l (NpFloat.fin x) = NpFloat.fin 0)
    ∧ (x < 0 → Log2Scaler.transform l (NpFloat.fin x) = NpFloat.nan
      ∧ Log10Scaler.transform l (NpFloat.fin x) = NpFloat.nan
      ∧ LogScaler.transform l (NpFloat.fin x) = NpFloat.nan)
    ∧ (v ≠ NpFloat.posInf →
      Log2Scaler.transform l v ≠ NpFloat.posInf
      ∧ Log2Scaler.transform l v ≠ NpFloat.negInf
      ∧ Log10Scaler.transform l v ≠ NpFloat.posInf
      ∧ Log10Scaler.transform l v ≠ NpFloat.negInf
      ∧ LogScaler.transform l v ≠ NpFloat.posInf
      ∧ LogScaler.transform l v ≠ NpFloat.negInf) := by
  refine ⟨?_, ?_, ?_⟩
  · intro hx
    subst hx
    exact ⟨logScalerCell_zero l, logScalerCell_zero l, logScalerCell_zero l⟩
  · intro hx
    exact ⟨logScalerCell_neg l x hx, logScalerCell_neg l x hx,
      logScalerCell_neg l x hx⟩
  · intro hv
    obtain ⟨h1, h2⟩ := logScalerCell_no_inf l v hv
    exact ⟨h1, h2, h1, h2, h1, h2⟩

/-- Witness for the amended C7 on concrete cells. -/
theorem c7_log_scalers_clamp_amended_witness :
    Log2Scaler.transform id (NpFloat.fin 0) = NpFloat.fin 0
    ∧ Log10Scaler.transform id (NpFloat.fin (-1)) = NpFloat.nan :=
  ⟨((c7_log_scalers_clamp_amended id 0 NpFloat.nan).1 rfl).1,
    ((c7_log_scalers_clamp_amended id (-1) NpFloat.nan).2.1 (by norm_num)).2.1⟩

/-- Counterexample to C7 as stated: a negative cell (here `-1`) is *not*
sent to `0` — `np.log2` yields `NaN` on it, and `replace(-inf, 0)` leaves
`NaN` alone. -/
theorem c7_log_scalers_clamp_counterexample :
    ¬ (∀ (l : ℚ → ℚ) (x : ℚ), x ≤ 0 →
        Log2Scaler.transform l (NpFloat.fin x) = NpFloat.fin 0
        ∧ Log10Scaler.transform l (NpFloat.fin x) = NpFloat.fin 0
        ∧ LogScaler.transform l (NpFloat.fin x) = NpFloat.fin 0) := by
  intro h
  have hx := (h id (-1) (by norm_num)).1
  exact absurd hx (by decide)

/-- The step `replace(0, nan)` leaves a row without zero cells (and without missing
cells) unchanged. -/
theorem replaceZeroNan_eq_of_no_zero (row : List (Option ℚ))
    (h : ∀ c ∈ row, ∃ q : ℚ, c = some q ∧ q ≠ 0) :
    replaceZeroNan row = row := by
  induction row with
  | nil => rfl
  | cons c cs ih =>
    obtain ⟨q, rfl, hq⟩ := h c (List.mem_cons_self c cs)
    simp only [replaceZeroNan, List.map_cons]
    rw [if_neg (by simpa using hq)]
    have h2 := ih (fun c hc => h c (List.mem_cons_of_mem _ hc))
    simp only [replaceZeroNan] at h2
    rw [h2]

/-- A fully observed row has as many observed cells as its length. -/
theorem countSome_eq_length (row : List (Option ℚ))
    (h : ∀ c ∈ row, c.isSome = true) : countSome row = row.length := by
  induction row with
  | nil => rfl
  | cons c cs ih =>
    obtain ⟨q, rfl⟩ := Option.isSome_iff_exists.mp (h c (List.mem_cons_self c cs))
    have h2 := ih (fun c hc => h c (List.mem_cons_of_mem _ hc))
    simp only [countSome, List.filterMap_cons] at h2 ⊢
    simp [h2]

/-- Imputation pass-through of sklearn: a row with no missing cell is
returned unchanged, whatever the fill values. -/
theorem fillCells_eq_of_all_some (fill : ℕ → ℕ → ℚ) (i : ℕ) :
    ∀ (row : List (Option ℚ)) (j : ℕ),
      (∀ c ∈ row, c.isSome = true) → fillCells fill i j row = row := by
  intro row
  induction row with
  | nil => intro j _; rfl
  | cons c cs ih =>
    intro j h
    obtain ⟨q, rfl⟩ := Option.isSome_iff_exists.mp (h c (List.mem_cons_self c cs))
    simp only [fillCells]
    rw [ih (j + 1) (fun c hc => h c (List.mem_cons_of_mem _ hc))]
    rfl

/-- Row-level version of the amended C8 over the processing recursion. -/
theorem knnRows_get_eq (fill : ℕ → ℕ → ℚ) (t : ℚ) (ncols : ℕ) (ht : t ≤ 1) :
    ∀ (rows : List (List (Option ℚ))) (i0 k : ℕ) (row : List (Option ℚ)),
      rows.get? k = some row →
      row.length = ncols →
      (∀ c ∈ row, ∃ q : ℚ, c = some q ∧ q ≠ 0) →
      (knnRows fill t ncols i0 rows).get? k = some row := by
  intro rows
  induction rows with
  | nil =>
    intro i0 k row hget
    simp at hget
  | cons r rs ih =>
    intro i0 k row hget hlen hrow
    have hsome : ∀ c ∈ row, c.isSome = true := by
      intro c hc
      obtain ⟨q, rfl, _⟩ := hrow c hc
      rfl
    cases k with
    | zero =>
      have hq : row = r := by simpa using hget.symm
      subst hq
      have hclean : replaceZeroNan row = row :=
        replaceZeroNan_eq_of_no_zero row hrow
      have hkeep : knnKeep t ncols row = true := by
        unfold knnKeep
        apply decide_eq_true
        rw [countSome_eq_length row hsome, hlen]
        exact mul_le_of_le_one_left (Nat.cast_nonneg ncols) ht
      simp only [knnRows, hclean, hkeep, if_true, List.get?]
      rw [fillCells_eq_of_all_some fill i0 row 0 hsome]
    | succ k2 =>
      simp only [List.get?] at hget
      simp only [knnRows, List.get?]
      exact ih (i0 + 1) k2 row hget hlen hrow

/-- A fully observed surviving row witnesses that no fit column is entirely
missing. -/
theorem someColAllNan_eq_false_of_full_row (ncols : ℕ)
    (rows : List (List (Option ℚ))) (row : List (Option ℚ))
    (hmem : row ∈ rows) (hlen : row.length = ncols)
    (hsome : ∀ c ∈ row, c.isSome = true) :
    someColAllNan ncols rows = false := by
  unfold someColAllNan
  rw [List.any_eq_false]
  intro j hj
  rw [List.mem_range] at hj
  have hjlen : j < row.length := hlen ▸ hj
  have hcell : (row.get? j).getD none = row.get ⟨j, hjlen⟩ := by
    rw [List.get?_eq_get hjlen]
    rfl
  have hobs : colObserved rows j = true := by
    unfold colObserved
    rw [List.any_eq_true]
    refine ⟨row, hmem, ?_⟩
    rw [hcell]
    exact hsome _ (List.get_mem row j hjlen)
  simp [hobs]

/-- Claim C8, amended: for any row that contains *neither a zero-valued nor
a missing cell*, and any sample threshold at most 1, the KNN imputer method
`fit_transform` succeeds and returns that row unchanged at its original
position.  (A row with no zero but with a missing `NaN` cell is imputed and
changes — see the counterexample.) -/
theorem c8_knn_identity_amended (fill : ℕ → ℕ → ℚ) (t : ℚ)
    (m : List (List (Option ℚ))) (i : ℕ) (row : List (Option ℚ))
    (ht : t ≤ 1)
    (hrect : ∀ r ∈ m, r.length = knnNcols m)
    (hget : m.get? i = some row)
    (hrow : ∀ c ∈ row, ∃ q : ℚ, c = some q ∧ q ≠ 0) :
    ∃ out, KNN_Imputer.fit_transform fill t m = Except.ok out
      ∧ out.get? i = some row := by
  have hmem : row ∈ m := List.get?_mem hget
  have hlen : row.length = knnNcols m := hrect row hmem
  have hsome : ∀ c ∈ row, c.isSome = true := by
    intro c hc
    obtain ⟨q, rfl, _⟩ := hrow c hc
    rfl
  have hclean : replaceZeroNan row = row := replaceZeroNan_eq_of_no_zero row hrow
  have hkeep : knnKeep t (knnNcols m) row = true := by
    unfold knnKeep
    apply decide_eq_true
    rw [countSome_eq_length row hsome, hlen]
    exact mul_le_of_le_one_left (Nat.cast_nonneg _) ht
  have hfit : row ∈ (m.map replaceZeroNan).filter (knnKeep t (knnNcols m)) := by
    apply List.mem_filter.mpr
    refine ⟨?_, hkeep⟩
    have hmap : replaceZeroNan row ∈ m.map replaceZeroNan :=
      List.mem_map_of_mem _ hmem
    rwa [hclean] at hmap
  have hcond := someColAllNan_eq_false_of_full_row (knnNcols m)
    ((m.map replaceZeroNan).filter (knnKeep t (knnNcols m))) row hfit hlen hsome
  refine ⟨knnRows fill t (knnNcols m) 0 m, ?_, ?_⟩
  · unfold KNN_Imputer.fit_transform
    rw [if_neg (by simp [hcond])]
  · exact knnRows_get_eq fill t (knnNcols m) ht m 0 i row hget hlen hrow

/-- Witness for the amended C8 on a concrete block. -/
theorem c8_knn_identity_amended_witness :
    ∃ out, KNN_Imputer.fit_transform (fun _ _ => 37) (1/2)
        [[some 1, some 2]] = Except.ok out
      ∧ out.get? 0 = some [some 1, some 2] :=
  c8_knn_identity_amended (fun _ _ => 37) (1/2) [[some 1, some 2]] 0
    [some 1, some 2] (by norm_num) (by decide) rfl
    (by
      intro c hc
      rcases List.mem_cons.mp hc with rfl | hc2
      · exact ⟨1, rfl, by norm_num⟩
      · rcases List.mem_cons.mp hc2 with rfl | hc3
        · exact ⟨2, rfl, by norm_num⟩
        · exact absurd hc3 (List.not_mem_nil c))

/-- Counterexample to C8 as stated: a row with no zero-valued cell but with
a missing (`NaN`) cell survives the completeness threshold and gets its
missing cell *filled* (the fully observed second row keeps every fit column
observed, so no column is dropped), hence the output row differs from the
original. -/
theorem c8_knn_identity_counterexample :
    ¬ (∀ (fill : ℕ → ℕ → ℚ) (m : List (List (Option ℚ))) (i : ℕ)
        (row : List (Option ℚ)),
        m.get? i = some row → (∀ c ∈ row, c ≠ some 0) →
        ∃ out, KNN_Imputer.fit_transform fill (1/2) m = Except.ok out
          ∧ out.get? i = some row) := by
  intro h
  have hrz1 : replaceZeroNan [none, some 1] = [none, some 1] := by decide
  have hrz2 : replaceZeroNan [some 5, some 6] = [some 5, some 6] := by decide
  have hk1 : knnKeep (1/2) 2 [none, some 1] = true := by
    unfold knnKeep
    apply decide_eq_true
    have hc : countSome [none, some 1] = 1 := rfl
    rw [hc]
    norm_num
  have hk2 : knnKeep (1/2) 2 [some 5, some 6] = true := by
    unfold knnKeep
    apply decide_eq_true
    have hc : countSome [some 5, some 6] = 2 := rfl
    rw [hc]
    norm_num
  have hn : knnNcols [[none, some 1], [some 5, some 6]] = 2 := rfl
  have hm2 : ([some 5, some 6] : List (Option ℚ)) ∈
      (([[none, some 1], [some 5, some 6]] :
        List (List (Option ℚ))).map replaceZeroNan).filter
        (knnKeep (1/2) 2) := by
    apply List.mem_filter.mpr
    refine ⟨?_, hk2⟩
    have hmm : replaceZeroNan [some 5, some 6] ∈
        ([[none, some 1], [some 5, some 6]] :
          List (List (Option ℚ))).map replaceZeroNan :=
      List.mem_map_of_mem _ (List.mem_cons_of_mem _ (List.mem_cons_self _ _))
    rwa [hrz2] at hmm
  have hcond : someColAllNan 2
      ((([[none, some 1], [some 5, some 6]] :
        List (List (Option ℚ))).map replaceZeroNan).filter
        (knnKeep (1/2) 2)) = false :=
    someColAllNan_eq_false_of_full_row 2 _ [some 5, some 6] hm2 rfl (by decide)
  have hft : KNN_Imputer.fit_transform (fun _ _ => 0) (1/2)
      [[none, some 1], [some 5, some 6]]
      = Except.ok (knnRows (fun _ _ => 0) (1/2) 2 0
        [[none, some 1], [some 5, some 6]]) := by
    unfold KNN_Imputer.fit_transform
    rw [hn]
    rw [if_neg (by intro hcontra; rw [hcond] at hcontra; cases hcontra)]
  have hout : (knnRows (fun _ _ => 0) (1/2) 2 0
      [[none, some 1], [some 5, some 6]]).get? 0 = some [some 0, some 1] := by
    simp only [knnRows, hrz1, hrz2, hk1, List.get?]
    rfl
  obtain ⟨out, hok, hrowEq⟩ :=
    h (fun _ _ => 0) [[none, some 1], [some 5, some 6]] 0 [none, some 1]
      rfl (by decide)
  rw [hft] at hok
  injection hok with hok
  subst hok
  rw [hout] at hrowEq
  exact absurd hrowEq (by decide)

/-- Claim C9, amended: `grouped_data.dropna()` retains a row exactly when
*no* column of the per-pair table is NaN — the gene-name column and the raw
group data columns included, not only the two computed columns.  (With
the scipy default NaN propagation a NaN data cell also forces a NaN `p_value`;
the observable difference from the claim is a row whose gene name is missing
but whose computed columns are not — see the counterexample.) -/
theorem c9_dropna_amended (pv : List (Option ℚ) → List (Option ℚ) → Option ℚ)
    (cols : List String) (g1 g2 : String) (rows : List FeatureRow)
    (r : DERow) :
    (r ∈ dropnaTable pv cols g1 g2 rows ↔
      r ∈ fullDeTable pv cols g1 g2 rows ∧ deRowHasNan r = false)
    ∧ (deRowHasNan r = false ↔
      (r.gene ≠ none ∧ (∀ c ∈ r.g1vals, c ≠ none) ∧
        (∀ c ∈ r.g2vals, c ≠ none) ∧ r.lfc ≠ none ∧ r.p ≠ none)) := by
  constructor
  · show r ∈ (fullDeTable pv cols g1 g2 rows).filter
      (fun x => !(deRowHasNan x)) ↔ _
    rw [List.mem_filter]
    simp
  · obtain ⟨g, v1, v2, lf, pp⟩ := r
    simp [deRowHasNan, Option.isNone_eq_false_iff, Option.isSome_iff_ne_none,
      List.any_eq_false]
    tauto

/-- Counterexample to C9 as stated: a row whose gene name is NaN but whose
`fold_change` and `p_value` are both non-NaN is nevertheless dropped —
`dropna()` looks at every column, not only the two computed ones.  (The
groups here have two fully observed samples each with non-degenerate values,
so instantiating the abstract t-test with a finite p-value matches what
`scipy.stats.ttest_ind` produces at this input.) -/
theorem c9_dropna_counterexample :
    dropnaTable (fun _ _ => some (1/2)) ["A1", "A2", "B1", "B2"] "A" "B"
      [⟨none, [some 1, some 2, some 4, some 8]⟩] = []
    ∧ (mkDERow (fun _ _ => some (1/2)) ["A1", "A2", "B1", "B2"] "A" "B"
        ⟨none, [some 1, some 2, some 4, some 8]⟩).lfc.isSome = true
    ∧ (mkDERow (fun _ _ => some (1/2)) ["A1", "A2", "B1", "B2"] "A" "B"
        ⟨none, [some 1, some 2, some 4, some 8]⟩).p.isSome = true :=
  ⟨rfl, rfl, rfl⟩

/-- Claim C10: with `plot=False`, `_impute_data` never writes anything back
into the matrix — the write-back `self.data.loc[:, data_cols] = ...` lives
inside the `if plot:` branch, so the stage is a no-op on the data. -/
theorem c10_impute_without_plot_is_noop
    (imp : List (List (Option ℚ)) → List (List (Option ℚ)))
    (groups : List String) : ∀ d : AnalysisData,
    imputeData imp false groups d = d := by
  induction groups with
  | nil => intro d; rfl
  | cons g gs ih =>
    intro d
    show List.foldl (imputeDataStep imp false) d (g :: gs) = d
    rw [List.foldl_cons]
    exact ih (imputeDataStep imp false d g)
